import Mathlib

/-!
# Verification development for `github.com/fsandov/logs`

A shallow embedding of `logs.go`: the formatter (`logBuilder`, `logDecorator`),
the constructor (`NewService`, `DefaultService`), the selector (`getLevelCaller`),
the sink dispatcher (`registerOrchestrator`, `registerFileLog`, `postLog`) and the
level methods, followed by theorems about them.

Conventions of the embedding.

* The clock is an input: `Env.date` and `Env.time` are the two strings that
  `time.Now().Format("2006-01-02")` and `time.Now().Format("15:04:05.999")` return.
* The call stack is an input: every function receives the frames of its callers
  (innermost first) and pushes its own frame, with the line of the call it makes,
  before calling on. `runtime.Caller(skip)` reads that list.
* A Go `string` is a Lean `String`; library routines that scan bytes for ASCII
  characters are written over `List Char`.
* A run-time panic (index out of range) is the value `none`.
* I/O is an explicit trace of `Event`s; what the operating system and the network
  answer is read from a `World`.
-/

namespace Logs

/-! ## Go library routines used by `logs.go` -/

/-- Go `strings.Join(elems, sep)`. -/
def stringsJoin : List String → String → String
  | [], _ => ""
  | [e], _ => e
  | e :: f :: rest, sep => e ++ sep ++ stringsJoin (f :: rest) sep

/-- Go `strings.Split(s, sep)` for a one-character separator, over characters:
the pieces between the separators, in order; the result always has `n + 1` pieces
for `n` occurrences of the separator. -/
def splitChars (sep : Char) : List Char → List (List Char)
  | [] => [[]]
  | c :: cs =>
    if c = sep then [] :: splitChars sep cs
    else
      match splitChars sep cs with
      | [] => [[c]]
      | piece :: pieces => (c :: piece) :: pieces

/-- Go `strings.Split(s, sep)` for a one-character separator. -/
def stringsSplit (s : String) (sep : Char) : List String :=
  (splitChars sep s.data).map String.mk

/-- Go `xs[len(xs)-1]`: the last element, or a panic (`none`) on an empty slice. -/
def lastIndex (xs : List String) : Option String :=
  xs.getLast?

/-- Decimal digits of a natural number, most significant first. -/
def natDigits : Nat → Nat → List Char
  | 0, _ => []
  | fuel + 1, n =>
    if n < 10 then [Char.ofNat (48 + n)]
    else natDigits fuel (n / 10) ++ [Char.ofNat (48 + n % 10)]

/-- Go `%d` applied to an `int`. -/
def fmtD (n : Int) : String :=
  if n < 0 then String.mk ('-' :: natDigits (n.natAbs + 1) n.natAbs)
  else String.mk (natDigits (n.toNat + 1) n.toNat)

/-- Whether a character is an ASCII decimal digit. -/
def isDigit (c : Char) : Bool :=
  decide ('0' ≤ c) && decide (c ≤ '9')

/-- Value of an ASCII decimal digit. -/
def digitVal (c : Char) : Nat :=
  c.toNat - 48

/-- Value of a list of decimal digits read left to right, starting from `acc`. -/
def digitsValue : List Char → Nat → Nat
  | [], acc => acc
  | c :: cs, acc => digitsValue cs (acc * 10 + digitVal c)

/-- Go `strconv.Atoi` on a 64-bit platform: an optional sign, then one or more
decimal digits, and a value that fits in `int`; anything else is an error (`none`). -/
def atoi (s : String) : Option Int :=
  let body (neg : Bool) (ds : List Char) : Option Int :=
    if ds.isEmpty || !ds.all isDigit then none
    else
      let v : Int := (digitsValue ds 0 : Nat)
      let r : Int := if neg then -v else v
      if -(2 : Int) ^ 63 ≤ r ∧ r < (2 : Int) ^ 63 then some r else none
  match s.data with
  | [] => none
  | '-' :: ds => body true ds
  | '+' :: ds => body false ds
  | ds => body false ds

/-! ### `fmt.Sprintf(format)` with no operands

`logs.go` builds the message body with `fmt.Sprintf(message + " " + extra)`: the
text is the FORMAT and there are no operands. The definitions below follow
`doPrintf`, `argNumber`, `parseArgNumber` and `parsenum` of Go's `fmt/print.go`
specialised to an empty operand list. -/

/-- Loop of `parsenum`: `(num, isnum, consumed)`; `total` is the length of the
segment, returned as the new position on overflow. -/
def parsenumLoop : List Char → Nat → Bool → Nat → Nat → Nat × Bool × Nat
  | [], num, isnum, k, _ => (num, isnum, k)
  | c :: cs, num, isnum, k, total =>
    if isDigit c then
      if num > 1000000 then (0, false, total)
      else parsenumLoop cs (num * 10 + digitVal c) true (k + 1) total
    else (num, isnum, k)

/-- Go `parsenum(s, start, end)` on the segment `s[start:end]`: the number read,
whether one was read, and how many characters were consumed. -/
def parsenum (seg : List Char) : Nat × Bool × Nat :=
  parsenumLoop seg 0 false 0 seg.length

/-- Number of bytes of the UTF-8 encoding of a character list (Go `len`). -/
def byteLen (cs : List Char) : Nat :=
  (cs.map (fun c => c.utf8Size)).sum

/-- Position of the first `]` at index `1` or later, as the loop of `parseArgNumber` finds it. -/
def findClose : List Char → Nat → Option Nat
  | [], _ => none
  | c :: cs, i => if c = ']' then some i else findClose cs (i + 1)

/-- Go `parseArgNumber(format)` on a text starting with `[`: `(wid, ok)`, the
number of characters to skip and whether a well-formed `[n]` was read. -/
def parseArgNumber (f : List Char) : Nat × Bool :=
  if byteLen f < 3 then (1, false)
  else
    match findClose f.tail 1 with
    | none => (1, false)
    | some i =>
      let r := parsenum ((f.drop 1).take (i - 1))
      if !r.2.1 || r.2.2 != i - 1 then (i + 1, false) else (i + 1, true)

/-- Go `argNumber` with no operands: the remaining text, `found`, and the new
value of `goodArgNum`. With no operands an index is never in range. -/
def argNumber (f : List Char) (good : Bool) : List Char × Bool × Bool :=
  match f with
  | '[' :: _ =>
    let r := parseArgNumber f
    (f.drop r.1, r.2, false)
  | _ => (f, false, good)

/-- Whether a character is one of the flags `#0+- ` of a verb. -/
def isFlag (c : Char) : Bool :=
  c = '#' || c = '0' || c = '+' || c = '-' || c = ' '

/-- One verb of `doPrintf` with no operands, on the text after the `%`: the
output it writes and the text left, or `none` for the text left when the format
ended before a verb. -/
def verbStep (f0 : List Char) : List Char × Option (List Char) :=
  let f1 := f0.dropWhile isFlag
  let a1 := argNumber f1 true
  -- width
  let w : List Char × List Char × Bool × Bool :=
    match a1.1 with
    | '*' :: rest => ("%!(BADWIDTH)".data, rest, false, a1.2.2)
    | f =>
      let r := parsenum f
      ([], f.drop r.2.2, a1.2.1, if a1.2.1 && r.2.1 then false else a1.2.2)
  -- precision: `if i+1 < end && format[i] == '.'`, so a `.` that ends the format
  -- is not a precision and is read as the verb below
  let p : List Char × List Char × Bool × Bool :=
    match w.2.1 with
    | '.' :: c :: cs =>
      let rest := c :: cs
      let good1 := if w.2.2.1 then false else w.2.2.2
      let a2 := argNumber rest good1
      match a2.1 with
      | '*' :: rest2 => (w.1 ++ "%!(BADPREC)".data, rest2, false, a2.2.2)
      | f =>
        let r := parsenum f
        (w.1, f.drop r.2.2, a2.2.1, a2.2.2)
    | _ => w
  let a3 := if p.2.2.1 then (p.2.1, true, p.2.2.2) else argNumber p.2.1 p.2.2.2
  match a3.1 with
  | [] => (p.1 ++ "%!(NOVERB)".data, none)
  | verb :: rest =>
    if verb = '%' then (p.1 ++ ['%'], some rest)
    else if !a3.2.2 then (p.1 ++ "%!".data ++ [verb] ++ "(BADINDEX)".data, some rest)
    else (p.1 ++ "%!".data ++ [verb] ++ "(MISSING)".data, some rest)

/-- Main loop of `doPrintf` with no operands: text up to a `%` is copied, then a
verb is processed. `fuel` bounds the number of iterations. -/
def doPrintf : Nat → List Char → List Char
  | 0, _ => []
  | _ + 1, [] => []
  | fuel + 1, c :: cs =>
    if c = '%' then
      match verbStep cs with
      | (out, none) => out
      | (out, some rest) => out ++ doPrintf fuel rest
    else c :: doPrintf fuel cs

/-- Go `fmt.Sprintf(format)` with no operands. Every iteration consumes at least
one character, so `length + 1` iterations are enough. -/
def sprintf0 (format : String) : String :=
  String.mk (doPrintf (format.data.length + 1) format.data)

/-! ## Data model -/

/-- Go `type Service struct`. -/
structure Service where
  NameApp : String
  URL : String
  FileLog : Bool
  fileName : String
  deriving DecidableEq, Repr

/-- One frame of the call stack, as `runtime.Caller` and `runtime.FuncForPC(pc).Name()`
report it: the source file path, the line of the call in progress, and the
qualified function name. -/
structure Frame where
  file : String
  line : Int
  function : String
  deriving DecidableEq, Repr

/-- What `runtime.Caller` returns when it resolves no frame: empty file, line `0`,
and a program counter for which `FuncForPC(pc).Name()` is empty. -/
def Frame.unresolved : Frame := ⟨"", 0, ""⟩

/-- The inputs of the formatter that the code reads from its platform. -/
structure Env where
  /-- what `time.Now().Format("2006-01-02")` returns -/
  date : String
  /-- what `time.Now().Format("15:04:05.999")` returns -/
  time : String
  /-- path of `logs.go` as recorded in the binary -/
  srcFile : String
  /-- frames that `runtime.Caller` reports for a `skip` that is negative or the largest
  `int` (inside the runtime) -/
  runtimeFrames : Int → Frame
  /-- date read while the literal passed to `NewService` for `DefaultService` is built -/
  initLitDate : String
  /-- date read inside `NewService` when `DefaultService` is initialised -/
  initDate : String

def logTrace : String := "TRACE"
def logDebug : String := "DEBUG"
def logInfo : String := "INFO"
def logNotice : String := "NOTICE"
def logWarning : String := "WARNING"
def logError : String := "ERROR"
def logFatal : String := "FATAL"
def caller : String := "3"
def callerDefault : String := "4"
def pathLogs : String := "logs"

/-! ## Constructor -/

/-- Go `fmt.Sprintf("%s/%s-%s.log", dir, name, date)`. -/
def fileNameOf (dir name date : String) : String :=
  dir ++ "/" ++ name ++ "-" ++ date ++ ".log"

/-- Go `NewService(config)`; `date` is `time.Now().Format("2006-01-02")`. -/
def NewService (date : String) (config : Service) : Service :=
  let nameApp := if config.NameApp = "" then "LOGS" else config.NameApp
  let fileName := if config.FileLog then fileNameOf pathLogs nameApp date else ""
  { NameApp := nameApp, URL := config.URL, FileLog := config.FileLog, fileName := fileName }

/-- Go package variable `DefaultService`. -/
def DefaultService (env : Env) : Service :=
  NewService env.initDate
    { NameApp := "LOGS", URL := "", FileLog := true,
      fileName := fileNameOf pathLogs "LOGS" env.initLitDate }

/-! ## Formatter -/

/-- Go `getLevelCaller(extraMessage...)`. -/
def getLevelCaller (extraMessage : List String) : String :=
  match extraMessage with
  | first :: _ => if first = callerDefault then callerDefault else caller
  | [] => caller

/-- The message text both branches of the formatter build:
`extraMessageSTR := ""; if callerLevel == caller { extraMessageSTR = strings.Join(extraMessage, " ") };
msg := fmt.Sprintf(message + " " + extraMessageSTR)`. -/
def messageBody (callerLevel message : String) (extraMessage : List String) : String :=
  let extraMessageSTR := if callerLevel = caller then stringsJoin extraMessage " " else ""
  sprintf0 (message ++ " " ++ extraMessageSTR)

/-- Go `fmt.Sprintf("[%s][%s][%s]-[%s] ", date, time, nameApp, level)`: the part of
both format strings before the message or the call site. -/
def lineHeader (env : Env) (nameApp mL : String) : String :=
  "[" ++ env.date ++ "][" ++ env.time ++ "][" ++ nameApp ++ "]-[" ++ mL ++ "] "

/-- Go `runtime.Caller(skip)` followed by `runtime.FuncForPC(pc).Name()`, on the
stack whose head is the function that calls `runtime.Caller`. The runtime walks
`skip + 1` frames up from itself, computed in `int`: for a negative `skip`, and for
the largest `int`, where `skip + 1` wraps to a negative number, the frame it
reports lies inside the runtime. -/
def runtimeCaller (env : Env) (stack : List Frame) (skip : Int) : Frame :=
  if skip < 0 ∨ (2 : Int) ^ 63 - 1 ≤ skip then env.runtimeFrames skip
  else (stack.get? skip.toNat).getD Frame.unresolved

/-- The frame a function of `logs.go` has on the stack while it makes the call at `line`. -/
def ownFrame (env : Env) (name : String) (line : Int) : Frame :=
  ⟨env.srcFile, line, "github.com/fsandov/logs." ++ name⟩

/-- Go `Service.logDecorator`; `callers` are the frames of its callers. -/
def logDecorator (env : Env) (callers : List Frame) (s : Service)
    (mL callerLevel message : String) (extraMessage : List String) : Option String :=
  let callerLevelINT : Int :=
    match atoi callerLevel with
    | some n => n
    | none => (atoi caller).getD 0
  let fr := runtimeCaller env (ownFrame env "Service.logDecorator" 118 :: callers) callerLevelINT
  match lastIndex (stringsSplit fr.file '/') with
  | none => none
  | some file =>
    match lastIndex (stringsSplit fr.function '.') with
    | none => none
    | some name =>
      let msg := messageBody callerLevel message extraMessage
      some (lineHeader env s.NameApp mL ++ file ++ ":" ++ fmtD fr.line ++ ":" ++ name ++ "(): " ++ msg)

/-- Go `Service.logBuilder`; `callers` are the frames of its callers. -/
def logBuilder (env : Env) (callers : List Frame) (s : Service)
    (mL callerLevel message : String) (extraMessage : List String) : Option String :=
  if mL = logInfo then
    let msg := messageBody callerLevel message extraMessage
    some (lineHeader env s.NameApp mL ++ msg)
  else
    logDecorator env (ownFrame env "Service.logBuilder" 107 :: callers) s mL callerLevel message
      extraMessage

/-! ## Sink dispatcher -/

/-- An I/O operation attempted by the code. -/
inductive Event where
  /-- `http.Post(url, contentType, body)` -/
  | httpPost (url contentType body : String)
  /-- `os.Stat(path)` -/
  | stat (path : String)
  /-- `os.Mkdir(path, perm)` -/
  | mkdir (path : String) (perm : Nat)
  /-- `os.OpenFile(name, os.O_CREATE|os.O_WRONLY|os.O_APPEND, perm)` -/
  | openFile (name : String) (perm : Nat)
  /-- the standard-output leg of the `io.MultiWriter` write -/
  | writeStdout (data : String)
  /-- the file leg of the `io.MultiWriter` write -/
  | writeFile (name data : String)
  /-- `file.Close()` -/
  | closeFile (name : String)
  /-- `fmt.Println(...)` of an error: the text, a newline added, on standard output -/
  | println (text : String)
  deriving DecidableEq, Repr

/-- What the platform answers to the operations of one log call. An error is
`some` of the text of `err.Error()`. -/
structure World where
  /-- error of `json.Marshal(value)` -/
  marshalErr : Option String
  /-- bytes `json.Marshal` produces for the map with the one key `content` -/
  jsonOf : String → String
  /-- error of `http.Post` -/
  postErr : Option String
  /-- whether `os.IsNotExist` holds of the error of `os.Stat(pathLogs)` -/
  statNotExist : Bool
  /-- error of `os.Mkdir` -/
  mkdirErr : Option String
  /-- error of `os.OpenFile` -/
  openErr : Option String
  /-- error (a short write included) of the write to standard output -/
  stdoutErr : Option String
  /-- error (a short write included) of the write to the file -/
  fileErr : Option String
  /-- error of `file.Close()` -/
  closeErr : Option String

/-- Go `Service.postLog`. -/
def postLog (w : World) (s : Service) (content : String) : List Event :=
  match w.marshalErr with
  | some err => [Event.println ("error marshaling SendInfo: " ++ err)]
  | none =>
    Event.httpPost s.URL "application/json" (w.jsonOf content) ::
      (match w.postErr with
       | some err => [Event.println err]
       | none => [])

/-- The deferred `file.Close()` of `registerFileLog`, with the report of its error. -/
def closeDeferred (w : World) (s : Service) : List Event :=
  Event.closeFile s.fileName ::
    (match w.closeErr with
     | some err => [Event.println err]
     | none => [])

/-- The part of `registerFileLog` from `os.OpenFile` on. `fmt.Fprintln(mw, content)`
hands `content` and a newline to the writers of the `io.MultiWriter` in order,
standard output first, and stops at the first error; the error is then dropped
by `if err != nil { return }`. -/
def openAndWrite (w : World) (s : Service) (content : String) : List Event :=
  Event.openFile s.fileName 0o666 ::
    (match w.openErr with
     | some err => [Event.println err]
     | none =>
       Event.writeStdout (content ++ "\n") ::
         (match w.stdoutErr with
          | some _ => closeDeferred w s
          | none => Event.writeFile s.fileName (content ++ "\n") :: closeDeferred w s))

/-- Go `Service.registerFileLog`. -/
def registerFileLog (w : World) (s : Service) (content : String) : List Event :=
  Event.stat pathLogs ::
    (if w.statNotExist then
       Event.mkdir pathLogs 0o755 ::
         (match w.mkdirErr with
          | some err => [Event.println err]
          | none => openAndWrite w s content)
     else openAndWrite w s content)

/-- The two sink procedures `registerOrchestrator` can call. -/
inductive Sink where
  /-- `s.postLog(content)` -/
  | webhook
  /-- `s.registerFileLog(content)` -/
  | fileConsole
  deriving DecidableEq, Repr

/-- One call of a sink procedure, with the operations it attempted, in order. -/
structure SinkCall where
  sink : Sink
  events : List Event
  deriving DecidableEq, Repr

/-- Go `Service.registerOrchestrator`: the sink procedures it calls, in order. -/
def registerOrchestrator (w : World) (s : Service) (content : String) : List SinkCall :=
  (if s.URL ≠ "" then [⟨Sink.webhook, postLog w s content⟩] else []) ++
    (if s.FileLog then [⟨Sink.fileConsole, registerFileLog w s content⟩] else [])

/-! ## Level methods -/

/-- Result of running a level method: the sink procedures called, in order, and
whether the method returned to its caller (it does not when the formatter panics). -/
structure Run where
  calls : List SinkCall
  returned : Bool
  deriving DecidableEq, Repr

/-- All operations attempted during a run, in order. -/
def Run.events (r : Run) : List Event :=
  (r.calls.map SinkCall.events).flatten

/-- The call `s.registerOrchestrator(line)` on the value of `s.logBuilder(...)`. -/
def dispatch (w : World) (s : Service) : Option String → Run
  | none => ⟨[], false⟩
  | some content => ⟨registerOrchestrator w s content, true⟩

/-- Go `Service.Trace`. -/
def Service.Trace (env : Env) (w : World) (callers : List Frame) (s : Service)
    (message : String) (extraMessage : List String) : Run :=
  dispatch w s (logBuilder env (ownFrame env "Service.Trace" 201 :: callers) s logTrace
    (getLevelCaller extraMessage) message extraMessage)

/-- Go `Service.Debug`. -/
def Service.Debug (env : Env) (w : World) (callers : List Frame) (s : Service)
    (message : String) (extraMessage : List String) : Run :=
  dispatch w s (logBuilder env (ownFrame env "Service.Debug" 207 :: callers) s logDebug
    (getLevelCaller extraMessage) message extraMessage)

/-- Go `Service.Info`. -/
def Service.Info (env : Env) (w : World) (callers : List Frame) (s : Service)
    (message : String) (extraMessage : List String) : Run :=
  dispatch w s (logBuilder env (ownFrame env "Service.Info" 213 :: callers) s logInfo
    (getLevelCaller extraMessage) message extraMessage)

/-- Go `Service.Notice`. -/
def Service.Notice (env : Env) (w : World) (callers : List Frame) (s : Service)
    (message : String) (extraMessage : List String) : Run :=
  dispatch w s (logBuilder env (ownFrame env "Service.Notice" 219 :: callers) s logNotice
    (getLevelCaller extraMessage) message extraMessage)

/-- Go `Service.Warning`. -/
def Service.Warning (env : Env) (w : World) (callers : List Frame) (s : Service)
    (message : String) (extraMessage : List String) : Run :=
  dispatch w s (logBuilder env (ownFrame env "Service.Warning" 225 :: callers) s logWarning
    (getLevelCaller extraMessage) message extraMessage)

/-- Go `Service.Error`. -/
def Service.Error (env : Env) (w : World) (callers : List Frame) (s : Service)
    (message : String) (extraMessage : List String) : Run :=
  dispatch w s (logBuilder env (ownFrame env "Service.Error" 231 :: callers) s logError
    (getLevelCaller extraMessage) message extraMessage)

/-- Go `Service.Fatal`. -/
def Service.Fatal (env : Env) (w : World) (callers : List Frame) (s : Service)
    (message : String) (extraMessage : List String) : Run :=
  dispatch w s (logBuilder env (ownFrame env "Service.Fatal" 237 :: callers) s logFatal
    (getLevelCaller extraMessage) message extraMessage)

/-- Go package-level `Trace`. -/
def Trace (env : Env) (w : World) (callers : List Frame) (message : String) : Run :=
  (DefaultService env).Trace env w (ownFrame env "Trace" 243 :: callers) message [callerDefault]

/-- Go package-level `Debug`. -/
def Debug (env : Env) (w : World) (callers : List Frame) (message : String) : Run :=
  (DefaultService env).Debug env w (ownFrame env "Debug" 249 :: callers) message [callerDefault]

/-- Go package-level `Info`. -/
def Info (env : Env) (w : World) (callers : List Frame) (message : String) : Run :=
  (DefaultService env).Info env w (ownFrame env "Info" 255 :: callers) message [callerDefault]

/-- Go package-level `Notice`. -/
def Notice (env : Env) (w : World) (callers : List Frame) (message : String) : Run :=
  (DefaultService env).Notice env w (ownFrame env "Notice" 261 :: callers) message [callerDefault]

/-- Go package-level `Warning`. -/
def Warning (env : Env) (w : World) (callers : List Frame) (message : String) : Run :=
  (DefaultService env).Warning env w (ownFrame env "Warning" 267 :: callers) message [callerDefault]

/-- Go package-level `Error`. -/
def Error (env : Env) (w : World) (callers : List Frame) (message : String) : Run :=
  (DefaultService env).Error env w (ownFrame env "Error" 273 :: callers) message [callerDefault]

/-- Go package-level `Fatal`. -/
def Fatal (env : Env) (w : World) (callers : List Frame) (message : String) : Run :=
  (DefaultService env).Fatal env w (ownFrame env "Fatal" 279 :: callers) message [callerDefault]

/-- Names of the seven level methods, to quantify over them. -/
inductive Method where
  | Trace | Debug | Info | Notice | Warning | Error | Fatal
  deriving DecidableEq, Repr

/-- The level string a method passes to `logBuilder`. -/
def Method.level : Method → String
  | .Trace => logTrace
  | .Debug => logDebug
  | .Info => logInfo
  | .Notice => logNotice
  | .Warning => logWarning
  | .Error => logError
  | .Fatal => logFatal

/-- The level method of a service named by `m`. -/
def Service.call (m : Method) (env : Env) (w : World) (callers : List Frame) (s : Service)
    (message : String) (extraMessage : List String) : Run :=
  match m with
  | .Trace => s.Trace env w callers message extraMessage
  | .Debug => s.Debug env w callers message extraMessage
  | .Info => s.Info env w callers message extraMessage
  | .Notice => s.Notice env w callers message extraMessage
  | .Warning => s.Warning env w callers message extraMessage
  | .Error => s.Error env w callers message extraMessage
  | .Fatal => s.Fatal env w callers message extraMessage

/-- The package-level function named by `m`. -/
def packageCall (m : Method) (env : Env) (w : World) (callers : List Frame)
    (message : String) : Run :=
  match m with
  | .Trace => Trace env w callers message
  | .Debug => Debug env w callers message
  | .Info => Info env w callers message
  | .Notice => Notice env w callers message
  | .Warning => Warning env w callers message
  | .Error => Error env w callers message
  | .Fatal => Fatal env w callers message

/-! ## Names used in the statements -/

/-- The depth `logDecorator` passes to `runtime.Caller` for a selector:
`strconv.Atoi(callerLevel)`, or `3` when that fails. -/
def depthOf (callerLevel : String) : Int :=
  match atoi callerLevel with
  | some n => n
  | none => 3

/-- The frame `logDecorator` resolves when it is reached from `logBuilder`. -/
def builderFrame (env : Env) (callers : List Frame) (callerLevel : String) : Frame :=
  runtimeCaller env
    (ownFrame env "Service.logDecorator" 118 :: ownFrame env "Service.logBuilder" 107 :: callers)
    (depthOf callerLevel)

/-- A concrete platform for evaluating the code: a fixed clock and source path. -/
def demoEnv : Env :=
  { date := "2024-01-02", time := "15:04:05.123", srcFile := "/src/logs/logs.go",
    runtimeFrames := fun _ => ⟨"/go/src/runtime/extern.go", 1, "runtime.Caller"⟩,
    initLitDate := "2024-01-01", initDate := "2024-01-01" }

/-- A concrete stack of callers: a test closure run by the test runner. -/
def demoStack : List Frame :=
  [⟨"/src/logs/logs_test.go", 102, "github.com/fsandov/logs.Test_logDecorator.func1"⟩,
   ⟨"/go/src/testing/testing.go", 1446, "testing.tRunner"⟩,
   ⟨"/go/src/runtime/asm_amd64.s", 1594, "runtime.goexit"⟩]

/-- The service of the tests of the repository: `NewService` on an all-empty configuration. -/
def demoService : Service :=
  NewService "2024-01-02" ⟨"", "", false, ""⟩

/-- The qualified name of the method `m`, after the package path. -/
def Method.methodName : Method → String
  | .Trace => "Service.Trace"
  | .Debug => "Service.Debug"
  | .Info => "Service.Info"
  | .Notice => "Service.Notice"
  | .Warning => "Service.Warning"
  | .Error => "Service.Error"
  | .Fatal => "Service.Fatal"

/-- The line of `logs.go` on which the method `m` calls `logBuilder`. -/
def Method.methodLine : Method → Int
  | .Trace => 201
  | .Debug => 207
  | .Info => 213
  | .Notice => 219
  | .Warning => 225
  | .Error => 231
  | .Fatal => 237

/-- The name of the package-level function `m`, after the package path. -/
def Method.packageName : Method → String
  | .Trace => "Trace"
  | .Debug => "Debug"
  | .Info => "Info"
  | .Notice => "Notice"
  | .Warning => "Warning"
  | .Error => "Error"
  | .Fatal => "Fatal"

/-- The line of `logs.go` on which the package-level function `m` calls the method. -/
def Method.packageLine : Method → Int
  | .Trace => 243
  | .Debug => 249
  | .Info => 255
  | .Notice => 261
  | .Warning => 267
  | .Error => 273
  | .Fatal => 279

/-- A world in which every operation succeeds and the directory `logs` exists. -/
def demoWorld : World :=
  { marshalErr := none, jsonOf := fun c => "J(" ++ c ++ ")", postErr := none,
    statNotExist := false, mkdirErr := none, openErr := none, stdoutErr := none,
    fileErr := none, closeErr := none }

/-- A service with both sinks configured, as `TestService_General` builds it. -/
def demoBoth : Service :=
  NewService "2024-01-02" ⟨"Test", "http://localhost:8080", true, "Logs"⟩

/-- A service with only the file sink configured. -/
def demoFile : Service :=
  NewService "2024-01-02" ⟨"Test", "", true, ""⟩

/-- The stack of a program whose `main` calls a logging function on line 17. -/
def demoMain : List Frame :=
  [⟨"/app/main.go", 17, "main.main"⟩, ⟨"/go/src/runtime/proc.go", 250, "runtime.main"⟩,
   ⟨"/go/src/runtime/asm_amd64.s", 1594, "runtime.goexit"⟩]

/-! ## Lemmas on the library routines -/

theorem splitChars_ne_nil (sep : Char) (cs : List Char) : splitChars sep cs ≠ [] := by
  induction cs with
  | nil => simp [splitChars]
  | cons c cs ih =>
    unfold splitChars
    split
    · simp
    · split <;> simp

theorem lastIndex_stringsSplit (s : String) (sep : Char) :
    ∃ piece, lastIndex (stringsSplit s sep) = some piece := by
  unfold lastIndex stringsSplit
  cases h : splitChars sep s.data with
  | nil => exact absurd h (splitChars_ne_nil sep s.data)
  | cons p ps =>
    have hne : List.map String.mk (p :: ps) ≠ [] := by simp
    exact ⟨_, List.getLast?_eq_getLast _ hne⟩

theorem atoi_caller : atoi caller = some 3 := by decide

theorem sprintf0_trailing_dot : sprintf0 "done 100%." = "done 100%!.(MISSING)" := by decide

theorem sprintf0_precision : sprintf0 "%.2f|%.*d|%5.x" = "%!f(MISSING)|%!(BADPREC)%!d(MISSING)|%!x(MISSING)" := by
  decide

theorem runtimeCaller_largest_int (env : Env) (stack : List Frame) :
    runtimeCaller env stack ((2 : Int) ^ 63 - 1) = env.runtimeFrames ((2 : Int) ^ 63 - 1) := by
  simp [runtimeCaller]

theorem runtimeCaller_in_stack (env : Env) (stack : List Frame) (n : Nat)
    (h : (n : Int) < (2 : Int) ^ 63 - 1) :
    runtimeCaller env stack n = (stack.get? n).getD Frame.unresolved := by
  have h0 : ¬ ((n : Int) < 0 ∨ (2 : Int) ^ 63 - 1 ≤ (n : Int)) := by omega
  unfold runtimeCaller
  rw [if_neg h0]
  simp

theorem logDecorator_eq (env : Env) (callers : List Frame) (s : Service)
    (mL callerLevel message : String) (extraMessage : List String) :
    ∃ file name,
      lastIndex (stringsSplit (runtimeCaller env
        (ownFrame env "Service.logDecorator" 118 :: callers) (depthOf callerLevel)).file '/')
        = some file ∧
      lastIndex (stringsSplit (runtimeCaller env
        (ownFrame env "Service.logDecorator" 118 :: callers) (depthOf callerLevel)).function '.')
        = some name ∧
      logDecorator env callers s mL callerLevel message extraMessage =
        some (lineHeader env s.NameApp mL ++ file ++ ":" ++
          fmtD (runtimeCaller env
            (ownFrame env "Service.logDecorator" 118 :: callers) (depthOf callerLevel)).line ++
          ":" ++ name ++ "(): " ++ messageBody callerLevel message extraMessage) := by
  obtain ⟨file, hf⟩ := lastIndex_stringsSplit (runtimeCaller env
        (ownFrame env "Service.logDecorator" 118 :: callers) (depthOf callerLevel)).file '/'
  obtain ⟨name, hn⟩ := lastIndex_stringsSplit (runtimeCaller env
        (ownFrame env "Service.logDecorator" 118 :: callers) (depthOf callerLevel)).function '.'
  refine ⟨file, name, hf, hn, ?_⟩
  have hd : (match atoi callerLevel with
      | some n => n
      | none => (atoi caller).getD 0) = depthOf callerLevel := by
    unfold depthOf
    cases atoi callerLevel with
    | none => simp [atoi_caller]
    | some n => rfl
  unfold logDecorator
  simp only [hd, hf, hn]

/-- C1. With the clock and the resolved frame as inputs, `logBuilder` returns, for
the level `INFO`, the header `[d][t][NameApp]-[INFO] ` immediately followed by the
message body and nothing else; for every other level `L` it returns the header
`[d][t][NameApp]-[L] `, then `<file>:<line>:<function>(): ` built from the last
path component of the frame's file, its line and the last dot-separated
component of its function name, then the same message body. -/
theorem logBuilder_format (env : Env) (callers : List Frame) (s : Service)
    (mL callerLevel message : String) (extraMessage : List String) :
    ∃ file name,
      lastIndex (stringsSplit (builderFrame env callers callerLevel).file '/') = some file ∧
      lastIndex (stringsSplit (builderFrame env callers callerLevel).function '.') = some name ∧
      ((mL = "INFO" ∧
          logBuilder env callers s mL callerLevel message extraMessage =
            some ("[" ++ env.date ++ "][" ++ env.time ++ "][" ++ s.NameApp ++ "]-[INFO] " ++
              messageBody callerLevel message extraMessage)) ∨
       (mL ≠ "INFO" ∧
          logBuilder env callers s mL callerLevel message extraMessage =
            some ("[" ++ env.date ++ "][" ++ env.time ++ "][" ++ s.NameApp ++ "]-[" ++ mL ++ "] " ++
              file ++ ":" ++ fmtD (builderFrame env callers callerLevel).line ++ ":" ++ name ++
              "(): " ++ messageBody callerLevel message extraMessage))) := by
  obtain ⟨file, name, hf, hn, hd⟩ := logDecorator_eq env
    (ownFrame env "Service.logBuilder" 107 :: callers) s mL callerLevel message extraMessage
  refine ⟨file, name, hf, hn, ?_⟩
  by_cases h : mL = "INFO"
  · left
    refine ⟨h, ?_⟩
    subst h
    have hh : ∀ a : String, a ++ "]-[" ++ "INFO" ++ "] " = a ++ "]-[INFO] " := by
      intro a
      rw [String.append_assoc, String.append_assoc]
      rfl
    simp [logBuilder, logInfo, lineHeader, hh]
  · right
    refine ⟨h, ?_⟩
    have h2 : ¬ mL = logInfo := h
    unfold logBuilder
    rw [if_neg h2, hd]
    simp [lineHeader, builderFrame]


/-! ## `fmt.Sprintf` on a text without `%` -/

theorem doPrintf_of_no_percent (f : List Char) :
    ∀ fuel, f.length < fuel → '%' ∉ f → doPrintf fuel f = f := by
  induction f with
  | nil =>
    intro fuel hlen _
    cases fuel with
    | zero => simp at hlen
    | succ n => rfl
  | cons c cs ih =>
    intro fuel hlen hno
    cases fuel with
    | zero => simp at hlen
    | succ n =>
      have hc : c ≠ '%' := fun h => hno (by simp [h])
      have hcs : '%' ∉ cs := fun h => hno (by simp [h])
      have hl : cs.length < n := by simpa using hlen
      simp [doPrintf, hc, ih n hl hcs]

theorem sprintf0_of_no_percent (format : String) (h : '%' ∉ format.data) :
    sprintf0 format = format := by
  unfold sprintf0
  rw [doPrintf_of_no_percent format.data _ (Nat.lt_succ_self _) h]

theorem stringsJoin_no_percent (es : List String) (h : ∀ e ∈ es, '%' ∉ e.data) :
    '%' ∉ (stringsJoin es " ").data := by
  induction es with
  | nil => simp [stringsJoin]
  | cons e rest ih =>
    cases rest with
    | nil => simpa [stringsJoin] using h e (by simp)
    | cons f rest2 =>
      have h1 := h e (by simp)
      have h2 := ih (fun x hx => h x (by simp [hx]))
      simp only [stringsJoin, String.data_append, List.mem_append, not_or]
      exact ⟨⟨h1, by decide⟩, h2⟩

theorem messageBody_of_no_percent (callerLevel message : String) (extraMessage : List String)
    (hm : '%' ∉ message.data) (he : ∀ e ∈ extraMessage, '%' ∉ e.data) :
    messageBody callerLevel message extraMessage =
      message ++ " " ++ (if callerLevel = caller then stringsJoin extraMessage " " else "") := by
  unfold messageBody
  apply sprintf0_of_no_percent
  simp only [String.data_append, List.mem_append, not_or]
  refine ⟨⟨hm, by decide⟩, ?_⟩
  split
  · exact stringsJoin_no_percent extraMessage he
  · decide

/-! ## Properties of the formatter and the constructor -/

/-- C2 (evaluation at the failing input). For the message `100%` and the extras
`x`, `y`, the body the code builds under the selector `3` is `100%!x(MISSING) y`
and not `100% x y`, and under the selector `4` it is `100%!(NOVERB)` and not `100% `:
the text is handed to `fmt.Sprintf` as the format and its `%` is read as a verb. The
`INFO` line of `logBuilder` and the line of `logDecorator` carry that body. -/
theorem messageBody_percent_is_format :
    messageBody "3" "100%" ["x", "y"] = "100%!x(MISSING) y" ∧
    messageBody "3" "100%" ["x", "y"] ≠ "100%" ++ " " ++ stringsJoin ["x", "y"] " " ∧
    messageBody "4" "100%" ["x", "y"] = "100%!(NOVERB)" ∧
    messageBody "4" "100%" ["x", "y"] ≠ "100%" ++ " " ∧
    logBuilder demoEnv demoStack demoService "INFO" "3" "100%" ["x", "y"] =
      some "[2024-01-02][15:04:05.123][LOGS]-[INFO] 100%!x(MISSING) y" ∧
    logDecorator demoEnv demoStack demoService "TRACE" "3" "100%" ["x", "y"] =
      some "[2024-01-02][15:04:05.123][LOGS]-[TRACE] asm_amd64.s:1594:goexit(): 100%!x(MISSING) y" := by
  refine ⟨by decide, by decide, by decide, by decide, by decide, by decide⟩

/-- C3. For a configuration with an empty `NameApp`, whatever its other fields,
the service `NewService` returns formats `logBuilder("INFO", "3", "msg")` with no
extras as exactly `[<date>][<time>][LOGS]-[INFO] msg `. -/
theorem logBuilder_info_default_name (env : Env) (callers : List Frame) (date : String)
    (c : Service) (h : c.NameApp = "") :
    logBuilder env callers (NewService date c) "INFO" "3" "msg" [] =
      some ("[" ++ env.date ++ "][" ++ env.time ++ "][LOGS]-[INFO] msg ") := by
  have hb : messageBody "3" "msg" [] = "msg " := by decide
  have hh : ∀ a : String, a ++ "][" ++ "LOGS" ++ "]-[" ++ "INFO" ++ "] " ++ "msg " =
      a ++ "][LOGS]-[INFO] msg " := by
    intro a
    simp only [String.append_assoc]
    rfl
  simp [logBuilder, logInfo, lineHeader, NewService, h, hb, hh]

theorem logBuilder_info_default_name_witness :
    logBuilder demoEnv demoStack
      (NewService "2024-01-02" ⟨"", "http://localhost:8080", true, "Logs"⟩) "INFO" "3" "msg" [] =
      some ("[" ++ demoEnv.date ++ "][" ++ demoEnv.time ++ "][LOGS]-[INFO] msg ") :=
  logBuilder_info_default_name demoEnv demoStack "2024-01-02"
    ⟨"", "http://localhost:8080", true, "Logs"⟩ rfl

/-- C4. `getLevelCaller` returns `4` exactly when the extras are non-empty and
begin with `4`, returns `3` exactly in every other case, and so always returns
one of the two tokens. -/
theorem getLevelCaller_spec (extraMessage : List String) :
    (getLevelCaller extraMessage = "4" ↔ ∃ rest, extraMessage = "4" :: rest) ∧
    (getLevelCaller extraMessage = "3" ↔ ¬ ∃ rest, extraMessage = "4" :: rest) ∧
    (getLevelCaller extraMessage = "3" ∨ getLevelCaller extraMessage = "4") := by
  have h34 : ("3" : String) ≠ "4" := by decide
  cases extraMessage with
  | nil => simp [getLevelCaller, caller, h34]
  | cons first rest =>
    by_cases hf : first = "4"
    · subst hf
      simp [getLevelCaller, callerDefault, h34.symm]
    · simp [getLevelCaller, callerDefault, caller, hf, h34]

/-- C5. The file path `NewService` derives is non-empty exactly when `FileLog` is
set: it is `logs/<name>-<date>.log` with `<name>` the `NameApp` of the
configuration, or `LOGS` when that is empty, and it is empty when `FileLog` is not
set, whatever `fileName` the configuration carried. `DefaultService` has `FileLog`
set and the path `logs/LOGS-<date>.log`. -/
theorem NewService_fileName (date : String) (c : Service) (env : Env) :
    ((NewService date c).fileName ≠ "" ↔ c.FileLog = true) ∧
    (NewService date c).FileLog = c.FileLog ∧
    (NewService date c).fileName =
      (if c.FileLog = true then
        "logs/" ++ (if c.NameApp = "" then "LOGS" else c.NameApp) ++ "-" ++ date ++ ".log"
       else "") ∧
    ((DefaultService env).fileName ≠ "" ↔ (DefaultService env).FileLog = true) ∧
    (DefaultService env).FileLog = true ∧
    (DefaultService env).fileName = "logs/LOGS-" ++ env.initDate ++ ".log" := by
  have hne : ∀ name d : String, fileNameOf pathLogs name d ≠ "" := by
    intro name d h
    have := congrArg String.length h
    simp [fileNameOf, pathLogs, String.length_append] at this
    exact absurd this.2 (by decide)
  have hpre : ∀ name d : String, fileNameOf pathLogs name d = "logs/" ++ name ++ "-" ++ d ++ ".log" := by
    intro name d
    simp only [fileNameOf, pathLogs, String.append_assoc]
    rfl
  have hD : (DefaultService env).fileName = fileNameOf pathLogs "LOGS" env.initDate := by
    simp [DefaultService, NewService]
  refine ⟨?_, rfl, ?_, ?_, rfl, ?_⟩
  · cases hF : c.FileLog
    · simp [NewService, hF]
    · simp only [NewService, hF, if_true]
      simpa using hne _ _
  · cases hF : c.FileLog
    · simp [NewService, hF]
    · simp only [NewService, hF, if_true]
      exact hpre _ _
  · rw [hD]
    simpa [DefaultService, NewService] using hne "LOGS" env.initDate
  · rw [hD, hpre]
    simp only [String.append_assoc]
    rfl


/-! ## Lemmas on the level methods -/

theorem logBuilder_returns (env : Env) (callers : List Frame) (s : Service)
    (mL callerLevel message : String) (extraMessage : List String) :
    ∃ line, logBuilder env callers s mL callerLevel message extraMessage = some line := by
  unfold logBuilder
  split
  · exact ⟨_, rfl⟩
  · obtain ⟨file, name, _, _, hd⟩ := logDecorator_eq env
      (ownFrame env "Service.logBuilder" 107 :: callers) s mL callerLevel message extraMessage
    exact ⟨_, hd⟩

theorem Service.call_eq (m : Method) (env : Env) (w : World) (callers : List Frame) (s : Service)
    (message : String) (extraMessage : List String) :
    s.call m env w callers message extraMessage =
      dispatch w s (logBuilder env (ownFrame env m.methodName m.methodLine :: callers) s m.level
        (getLevelCaller extraMessage) message extraMessage) := by
  cases m <;> rfl

theorem packageCall_eq (m : Method) (env : Env) (w : World) (callers : List Frame)
    (message : String) :
    packageCall m env w callers message =
      (DefaultService env).call m env w (ownFrame env m.packageName m.packageLine :: callers)
        message [callerDefault] := by
  cases m <;> rfl

theorem registerFileLog_indep (w : World) (me pe : Option String) (s : Service) (content : String) :
    registerFileLog { w with marshalErr := me, postErr := pe } s content =
      registerFileLog w s content := rfl

/-! ## Properties of the dispatcher and the level methods -/

/-- C6. A service with `FileLog` false and an empty `URL` performs no I/O in any
of the seven level methods, for every message and extras: no sink procedure is
called, the list of operations attempted is empty, and the method returns. -/
theorem no_sink_no_effect (m : Method) (env : Env) (w : World) (callers : List Frame)
    (s : Service) (message : String) (extraMessage : List String)
    (hF : s.FileLog = false) (hU : s.URL = "") :
    (s.call m env w callers message extraMessage).calls = [] ∧
    (s.call m env w callers message extraMessage).events = [] ∧
    (s.call m env w callers message extraMessage).returned = true := by
  obtain ⟨line, hl⟩ := logBuilder_returns env (ownFrame env m.methodName m.methodLine :: callers)
    s m.level (getLevelCaller extraMessage) message extraMessage
  rw [Service.call_eq, hl]
  simp [dispatch, registerOrchestrator, Run.events, hF, hU]

theorem no_sink_no_effect_witness :
    (demoService.call Method.Fatal demoEnv demoWorld demoMain "message" ["a", "b"]).calls = [] ∧
    (demoService.call Method.Fatal demoEnv demoWorld demoMain "message" ["a", "b"]).events = [] ∧
    (demoService.call Method.Fatal demoEnv demoWorld demoMain "message" ["a", "b"]).returned = true :=
  no_sink_no_effect Method.Fatal demoEnv demoWorld demoMain demoService "message" ["a", "b"]
    (by decide) (by decide)

/-- C7 (evaluation at the failing input). On the service built from the default
configuration (empty `URL`, `FileLog` false) a call of any level method attempts
no operation at all, whatever the platform answers: in particular nothing is
written to standard output, although `URL` is not provided. -/
theorem default_config_prints_nothing (m : Method) (env : Env) (w : World)
    (callers : List Frame) (date message : String) (extraMessage : List String) :
    ((NewService date ⟨"", "", false, ""⟩).call m env w callers message extraMessage).events = [] ∧
    (∀ data, Event.writeStdout data ∉
      ((NewService date ⟨"", "", false, ""⟩).call m env w callers message extraMessage).events) ∧
    (∀ text, Event.println text ∉
      ((NewService date ⟨"", "", false, ""⟩).call m env w callers message extraMessage).events) := by
  obtain ⟨line, hl⟩ := logBuilder_returns env (ownFrame env m.methodName m.methodLine :: callers)
    (NewService date ⟨"", "", false, ""⟩) m.level (getLevelCaller extraMessage) message extraMessage
  have he : ((NewService date ⟨"", "", false, ""⟩).call m env w callers message
      extraMessage).events = [] := by
    rw [Service.call_eq, hl]
    simp [dispatch, registerOrchestrator, Run.events, NewService]
  rw [he]
  simp

/-- C8. For every service and every one of the seven level methods, `Fatal`
included, the method formats a line and returns, and the sink procedures it calls
are exactly: the webhook post when `URL` is non-empty, then the file-and-console
write when `FileLog` is set, each on that line. The webhook call posts the line
unless the serialisation fails, and attempts no file or console write. The
file-and-console call starts with `os.Stat`, opens the file once the directory is
there, writes the line and a newline to standard output once the file is open and
to the file once standard output took it, and closes the file; it attempts no
post, and it is the same whatever the serialisation and the post answer. When no
operation fails the operations of the run are exactly the post, `stat`, `mkdir`
if the directory is missing, `open`, the two writes and `close`. -/
theorem sinks_attempted (m : Method) (env : Env) (w : World) (callers : List Frame)
    (s : Service) (message : String) (extraMessage : List String) :
    ∃ line,
      logBuilder env (ownFrame env m.methodName m.methodLine :: callers) s m.level
        (getLevelCaller extraMessage) message extraMessage = some line ∧
      (s.call m env w callers message extraMessage).returned = true ∧
      (s.call m env w callers message extraMessage).calls.map SinkCall.sink =
        (if s.URL ≠ "" then [Sink.webhook] else []) ++
          (if s.FileLog = true then [Sink.fileConsole] else []) ∧
      (s.call m env w callers message extraMessage).calls =
        (if s.URL ≠ "" then [⟨Sink.webhook, postLog w s line⟩] else []) ++
          (if s.FileLog = true then [⟨Sink.fileConsole, registerFileLog w s line⟩] else []) ∧
      (∀ e ∈ postLog w s line,
        e = Event.httpPost s.URL "application/json" (w.jsonOf line) ∨ ∃ text, e = Event.println text) ∧
      (w.marshalErr = none →
        Event.httpPost s.URL "application/json" (w.jsonOf line) ∈ postLog w s line) ∧
      (∀ e ∈ registerFileLog w s line, ∀ url ct body, e ≠ Event.httpPost url ct body) ∧
      Event.stat pathLogs ∈ registerFileLog w s line ∧
      (∀ me pe : Option String,
        (s.call m env { w with marshalErr := me, postErr := pe } callers message
            extraMessage).calls.filter (fun c => c.sink = Sink.fileConsole) =
          (s.call m env w callers message extraMessage).calls.filter
            (fun c => c.sink = Sink.fileConsole)) ∧
      (w.marshalErr = none →
        (postLog w s line).head? =
          some (Event.httpPost s.URL "application/json" (w.jsonOf line))) ∧
      (Event.httpPost s.URL "application/json" (w.jsonOf line) ∈ postLog w s line ↔
        w.marshalErr = none) ∧
      (registerFileLog w s line).head? = some (Event.stat pathLogs) ∧
      (w.statNotExist = true → Event.mkdir pathLogs 0o755 ∈ registerFileLog w s line) ∧
      ((w.statNotExist = false ∨ w.mkdirErr = none) →
        Event.openFile s.fileName 0o666 ∈ registerFileLog w s line) ∧
      ((w.statNotExist = false ∨ w.mkdirErr = none) → w.openErr = none →
        Event.writeStdout (line ++ "\n") ∈ registerFileLog w s line ∧
        Event.closeFile s.fileName ∈ registerFileLog w s line) ∧
      ((w.statNotExist = false ∨ w.mkdirErr = none) → w.openErr = none → w.stdoutErr = none →
        Event.writeFile s.fileName (line ++ "\n") ∈ registerFileLog w s line) ∧
      (w.mkdirErr = none → w.openErr = none → w.stdoutErr = none → w.closeErr = none →
        registerFileLog w s line =
          Event.stat pathLogs ::
            ((if w.statNotExist = true then [Event.mkdir pathLogs 0o755] else []) ++
              [Event.openFile s.fileName 0o666, Event.writeStdout (line ++ "\n"),
               Event.writeFile s.fileName (line ++ "\n"), Event.closeFile s.fileName])) ∧
      (w.marshalErr = none → w.postErr = none → w.mkdirErr = none → w.openErr = none →
        w.stdoutErr = none → w.closeErr = none →
        (s.call m env w callers message extraMessage).events =
          (if s.URL ≠ "" then [Event.httpPost s.URL "application/json" (w.jsonOf line)] else []) ++
            (if s.FileLog = true then
              Event.stat pathLogs ::
                ((if w.statNotExist = true then [Event.mkdir pathLogs 0o755] else []) ++
                  [Event.openFile s.fileName 0o666, Event.writeStdout (line ++ "\n"),
                   Event.writeFile s.fileName (line ++ "\n"), Event.closeFile s.fileName])
             else [])) := by
  obtain ⟨line, hl⟩ := logBuilder_returns env (ownFrame env m.methodName m.methodLine :: callers)
    s m.level (getLevelCaller extraMessage) message extraMessage
  have hexact : w.mkdirErr = none → w.openErr = none → w.stdoutErr = none → w.closeErr = none →
      registerFileLog w s line =
        Event.stat pathLogs ::
          ((if w.statNotExist = true then [Event.mkdir pathLogs 0o755] else []) ++
            [Event.openFile s.fileName 0o666, Event.writeStdout (line ++ "\n"),
             Event.writeFile s.fileName (line ++ "\n"), Event.closeFile s.fileName]) := by
    intro h2 h3 h4 h5
    unfold registerFileLog openAndWrite closeDeferred
    cases h1 : w.statNotExist <;> simp [h2, h3, h4, h5]
  refine ⟨line, hl, ?_, ?_, ?_, ?_, ?_, ?_, ?_, ?_, ?_, ?_, ?_, ?_, ?_, ?_, ?_, hexact, ?_⟩
  · rw [Service.call_eq, hl]; rfl
  · rw [Service.call_eq, hl]
    simp only [dispatch, registerOrchestrator]
    by_cases hU : s.URL = "" <;> cases hF : s.FileLog <;> simp [hU]
  · rw [Service.call_eq, hl]; rfl
  · intro e he
    unfold postLog at he
    cases hm : w.marshalErr with
    | some err => simp [hm] at he; exact Or.inr ⟨_, he⟩
    | none =>
      cases hp : w.postErr with
      | some err =>
        simp [hm, hp] at he
        rcases he with he | he
        · exact Or.inl he
        · exact Or.inr ⟨_, he⟩
      | none => simp [hm, hp] at he; exact Or.inl he
  · intro hm
    simp [postLog, hm]
  · intro e he url ct body hcontra
    subst hcontra
    unfold registerFileLog openAndWrite closeDeferred at he
    cases h1 : w.statNotExist <;> cases h2 : w.mkdirErr <;> cases h3 : w.openErr <;>
      cases h4 : w.stdoutErr <;> cases h5 : w.closeErr <;> simp [h1, h2, h3, h4, h5] at he
  · simp [registerFileLog]
  · intro me pe
    rw [Service.call_eq, Service.call_eq, hl]
    simp only [dispatch, registerOrchestrator]
    by_cases hU : s.URL = "" <;> cases hF : s.FileLog <;>
      simp [hU, registerFileLog_indep]
  · intro hm
    simp [postLog, hm]
  · cases hm : w.marshalErr with
    | some err => simp [postLog, hm]
    | none => simp [postLog, hm]
  · simp [registerFileLog]
  · intro h1
    simp [registerFileLog, h1]
  · intro hdir
    unfold registerFileLog openAndWrite
    cases h1 : w.statNotExist <;> cases h2 : w.mkdirErr <;> simp_all
  · intro hdir h3
    unfold registerFileLog openAndWrite closeDeferred
    cases h1 : w.statNotExist <;> cases h2 : w.mkdirErr <;> cases h4 : w.stdoutErr <;>
      simp_all
  · intro hdir h3 h4
    unfold registerFileLog openAndWrite closeDeferred
    cases h1 : w.statNotExist <;> cases h2 : w.mkdirErr <;> simp_all
  · intro hm hp h2 h3 h4 h5
    rw [Service.call_eq, hl]
    simp only [dispatch, registerOrchestrator, Run.events]
    rw [hexact h2 h3 h4 h5]
    by_cases hU : s.URL = "" <;> cases hF : s.FileLog <;> simp [hU, postLog, hm, hp]

/-- C9 (evaluation at the failing input). When the serialisation or the post fails,
and when `os.Mkdir` or `os.OpenFile` fails, the error is printed, the step is
abandoned, and the method returns; when the write to the file fails, the method
returns too, but the operations attempted are `stat`, `open`, the two writes and
`close`, with no print of the error. -/
theorem write_failure_not_reported :
    (demoBoth.call Method.Error demoEnv
        { demoWorld with marshalErr := some "json: unsupported value", openErr := some "denied" }
        demoMain "boom" []) =
      ⟨[⟨Sink.webhook, [Event.println "error marshaling SendInfo: json: unsupported value"]⟩,
        ⟨Sink.fileConsole, [Event.stat "logs", Event.openFile "logs/Test-2024-01-02.log" 0o666,
          Event.println "denied"]⟩], true⟩ ∧
    (demoBoth.call Method.Error demoEnv
        { demoWorld with postErr := some "connection refused", openErr := some "denied" }
        demoMain "boom" []) =
      ⟨[⟨Sink.webhook, [Event.httpPost "http://localhost:8080" "application/json"
            "J([2024-01-02][15:04:05.123][Test]-[ERROR] main.go:17:main(): boom )",
          Event.println "connection refused"]⟩,
        ⟨Sink.fileConsole, [Event.stat "logs", Event.openFile "logs/Test-2024-01-02.log" 0o666,
          Event.println "denied"]⟩], true⟩ ∧
    (demoFile.call Method.Error demoEnv
        { demoWorld with statNotExist := true, mkdirErr := some "mkdir logs: permission denied" }
        demoMain "boom" []) =
      ⟨[⟨Sink.fileConsole, [Event.stat "logs", Event.mkdir "logs" 0o755,
          Event.println "mkdir logs: permission denied"]⟩], true⟩ ∧
    (demoFile.call Method.Error demoEnv
        { demoWorld with openErr := some "open logs/Test-2024-01-02.log: permission denied" }
        demoMain "boom" []) =
      ⟨[⟨Sink.fileConsole, [Event.stat "logs", Event.openFile "logs/Test-2024-01-02.log" 0o666,
          Event.println "open logs/Test-2024-01-02.log: permission denied"]⟩], true⟩ ∧
    (demoFile.call Method.Error demoEnv
        { demoWorld with fileErr := some "write logs/Test-2024-01-02.log: no space left on device" }
        demoMain "boom" []) =
      ⟨[⟨Sink.fileConsole, [Event.stat "logs", Event.openFile "logs/Test-2024-01-02.log" 0o666,
          Event.writeStdout "[2024-01-02][15:04:05.123][Test]-[ERROR] main.go:17:main(): boom \n",
          Event.writeFile "logs/Test-2024-01-02.log"
            "[2024-01-02][15:04:05.123][Test]-[ERROR] main.go:17:main(): boom \n",
          Event.closeFile "logs/Test-2024-01-02.log"]⟩], true⟩ ∧
    (∀ text, Event.println text ∉
      (demoFile.call Method.Error demoEnv
        { demoWorld with fileErr := some "write logs/Test-2024-01-02.log: no space left on device" }
        demoMain "boom" []).events) := by
  refine ⟨by decide, by decide, by decide, by decide, by decide, ?_⟩
  intro text
  have he : (demoFile.call Method.Error demoEnv
      { demoWorld with fileErr := some "write logs/Test-2024-01-02.log: no space left on device" }
      demoMain "boom" []).events =
      [Event.stat "logs", Event.openFile "logs/Test-2024-01-02.log" 0o666,
        Event.writeStdout "[2024-01-02][15:04:05.123][Test]-[ERROR] main.go:17:main(): boom \n",
        Event.writeFile "logs/Test-2024-01-02.log"
          "[2024-01-02][15:04:05.123][Test]-[ERROR] main.go:17:main(): boom \n",
        Event.closeFile "logs/Test-2024-01-02.log"] := by decide
  rw [he]
  simp

/-- C10 (counterexample). Called from line 17 of `main`, the package-level `Info`
hands the sinks the plain line `[..][LOGS]-[INFO] hello `, not a line that reports
`main.go:17:main(): `; and the package-level `Trace` on the message `100%` hands
them a line whose body is `100%!(NOVERB)`, not `100% `. -/
theorem package_info_has_no_call_site :
    Info demoEnv demoWorld demoMain "hello" =
      dispatch demoWorld (DefaultService demoEnv)
        (some "[2024-01-02][15:04:05.123][LOGS]-[INFO] hello ") ∧
    Info demoEnv demoWorld demoMain "hello" ≠
      dispatch demoWorld (DefaultService demoEnv)
        (some "[2024-01-02][15:04:05.123][LOGS]-[INFO] main.go:17:main(): hello ") ∧
    Trace demoEnv demoWorld demoMain "100%" =
      dispatch demoWorld (DefaultService demoEnv)
        (some "[2024-01-02][15:04:05.123][LOGS]-[TRACE] main.go:17:main(): 100%!(NOVERB)") ∧
    Trace demoEnv demoWorld demoMain "100%" ≠
      dispatch demoWorld (DefaultService demoEnv)
        (some "[2024-01-02][15:04:05.123][LOGS]-[TRACE] main.go:17:main(): 100% ") := by
  refine ⟨by decide, by decide, by decide, by decide⟩

theorem Method.level_ne_info (m : Method) (h : m ≠ Method.Info) : m.level ≠ logInfo := by
  cases m <;> first | exact absurd rfl h | decide

theorem atoi_callerDefault : atoi callerDefault = some 4 := by decide

/-- C10 (amended). Every package-level function forwards to the same-named method
of `DefaultService` with `4` as its only extra, and the selector resolves to `4`.
For every message, the line handed to the sinks is, for `Info`, the plain line
`[d][t][LOGS]-[INFO] ` followed by the message body, and for the six other
functions the header, then `<file>:<line>:<function>(): ` of the frame of the
caller of the package-level function, then the message body. The extra `4` has no
part in the body, which is the body the same message has with no extras; for a
message without `%` the body is the message followed by one space. -/
theorem packageCall_format (m : Method) (env : Env) (w : World) (f : Frame) (rest : List Frame)
    (message : String) :
    packageCall m env w (f :: rest) message =
      (DefaultService env).call m env w (ownFrame env m.packageName m.packageLine :: f :: rest)
        message ["4"] ∧
    getLevelCaller ["4"] = "4" ∧
    ∃ file name body,
      lastIndex (stringsSplit f.file '/') = some file ∧
      lastIndex (stringsSplit f.function '.') = some name ∧
      body = messageBody "4" message ["4"] ∧
      body = messageBody "4" message [] ∧
      ('%' ∉ message.data → body = message ++ " ") ∧
      ((m = Method.Info ∧
          packageCall m env w (f :: rest) message =
            dispatch w (DefaultService env)
              (some ("[" ++ env.date ++ "][" ++ env.time ++ "][LOGS]-[INFO] " ++ body))) ∨
       (m ≠ Method.Info ∧
          packageCall m env w (f :: rest) message =
            dispatch w (DefaultService env)
              (some ("[" ++ env.date ++ "][" ++ env.time ++ "][LOGS]-[" ++ m.level ++ "] " ++
                file ++ ":" ++ fmtD f.line ++ ":" ++ name ++ "(): " ++ body)))) := by
  have hbody : '%' ∉ message.data →
      messageBody callerDefault message [callerDefault] = message ++ " " := by
    intro hm
    rw [messageBody_of_no_percent callerDefault message [callerDefault] hm
      (by intro e he; simp at he; subst he; decide)]
    have : ¬ callerDefault = caller := by decide
    simp [this]
  have hnoextra : messageBody callerDefault message [callerDefault] =
      messageBody callerDefault message [] := by
    have : ¬ callerDefault = caller := by decide
    simp [messageBody, this]
  have hsel : getLevelCaller [callerDefault] = callerDefault := by decide
  have hname : (DefaultService env).NameApp = "LOGS" := rfl
  refine ⟨packageCall_eq m env w (f :: rest) message, by decide, ?_⟩
  obtain ⟨file, name, hf, hn, hd⟩ := logDecorator_eq env
    (ownFrame env "Service.logBuilder" 107 :: ownFrame env m.methodName m.methodLine ::
      ownFrame env m.packageName m.packageLine :: f :: rest)
    (DefaultService env) m.level callerDefault message [callerDefault]
  have hdepth : depthOf callerDefault = 4 := by
    unfold depthOf
    rw [atoi_callerDefault]
  have hfr : runtimeCaller env
      (ownFrame env "Service.logDecorator" 118 :: ownFrame env "Service.logBuilder" 107 ::
        ownFrame env m.methodName m.methodLine ::
        ownFrame env m.packageName m.packageLine :: f :: rest) (depthOf callerDefault) = f := by
    rw [hdepth]
    have h4 : ¬ ((4 : Int) < 0 ∨ (2 : Int) ^ 63 - 1 ≤ 4) := by decide
    simp [runtimeCaller, h4]
  rw [hfr] at hf hn hd
  refine ⟨file, name, messageBody callerDefault message [callerDefault], hf, hn, rfl, hnoextra,
    hbody, ?_⟩
  rw [packageCall_eq, Service.call_eq, hsel]
  by_cases hI : m = Method.Info
  · left
    refine ⟨hI, ?_⟩
    subst hI
    have hh : ∀ a : String, a ++ "][" ++ "LOGS" ++ "]-[" ++ "INFO" ++ "] " =
        a ++ "][LOGS]-[INFO] " := by
      intro a
      simp only [String.append_assoc]
      rfl
    simp [logBuilder, Method.level, logInfo, lineHeader, hname, hh]
  · right
    refine ⟨hI, ?_⟩
    have hL := Method.level_ne_info m hI
    have hh : ∀ a b : String, a ++ "][" ++ "LOGS" ++ "]-[" ++ b = a ++ "][LOGS]-[" ++ b := by
      intro a b
      simp only [String.append_assoc]
      rfl
    unfold logBuilder
    rw [if_neg hL, hd, hname]
    simp [lineHeader, hh, String.append_assoc]

theorem packageCall_format_witness :
    packageCall Method.Warning demoEnv demoWorld demoMain "disk almost full" =
      (DefaultService demoEnv).call Method.Warning demoEnv demoWorld
        (ownFrame demoEnv Method.Warning.packageName Method.Warning.packageLine :: demoMain)
        "disk almost full" ["4"] ∧
    getLevelCaller ["4"] = "4" ∧
    packageCall Method.Warning demoEnv demoWorld demoMain "disk almost full" =
      dispatch demoWorld (DefaultService demoEnv)
        (some "[2024-01-02][15:04:05.123][LOGS]-[WARNING] main.go:17:main(): disk almost full ") ∧
    packageCall Method.Error demoEnv demoWorld demoMain "disk 95% full" =
      dispatch demoWorld (DefaultService demoEnv)
        (some ("[2024-01-02][15:04:05.123][LOGS]-[ERROR] main.go:17:main(): " ++
          messageBody "4" "disk 95% full" [])) := by
  have hW := packageCall_format Method.Warning demoEnv demoWorld ⟨"/app/main.go", 17, "main.main"⟩
    [⟨"/go/src/runtime/proc.go", 250, "runtime.main"⟩,
     ⟨"/go/src/runtime/asm_amd64.s", 1594, "runtime.goexit"⟩] "disk almost full"
  have hE := packageCall_format Method.Error demoEnv demoWorld ⟨"/app/main.go", 17, "main.main"⟩
    [⟨"/go/src/runtime/proc.go", 250, "runtime.main"⟩,
     ⟨"/go/src/runtime/asm_amd64.s", 1594, "runtime.goexit"⟩] "disk 95% full"
  refine ⟨hW.1, hW.2.1, ?_, ?_⟩
  · obtain ⟨file, name, body, hf, hn, _, _, hb, hline⟩ := hW.2.2
    have hfile : file = "main.go" := Option.some.inj (hf.symm.trans (by decide))
    have hname : name = "main" := Option.some.inj (hn.symm.trans (by decide))
    have hbody : body = "disk almost full" ++ " " := hb (by decide)
    subst hfile
    subst hname
    subst hbody
    rcases hline with ⟨hI, _⟩ | ⟨_, h⟩
    · exact absurd hI (by decide)
    · exact h.trans (by decide)
  · obtain ⟨file, name, body, hf, hn, _, hb, _, hline⟩ := hE.2.2
    have hfile : file = "main.go" := Option.some.inj (hf.symm.trans (by decide))
    have hname : name = "main" := Option.some.inj (hn.symm.trans (by decide))
    subst hfile
    subst hname
    subst hb
    rcases hline with ⟨hI, _⟩ | ⟨_, h⟩
    · exact absurd hI (by decide)
    · exact h.trans (by decide)

/-! ## Properties of the stack inspection -/

theorem depthOf_of_atoi_none (callerLevel : String) (h : atoi callerLevel = none) :
    depthOf callerLevel = 3 := by
  unfold depthOf
  rw [h]

theorem depthOf_of_atoi_some (callerLevel : String) (n : Int) (h : atoi callerLevel = some n) :
    depthOf callerLevel = n := by
  unfold depthOf
  rw [h]

theorem depthOf_caller : depthOf "3" = 3 := by decide

/-- C11. When `runtime.Caller` resolves no frame (empty file, line `0`, no function
name), `logDecorator` still returns a line: the last component of the empty path
and of the empty name are both the empty string, so its call-site segment is
exactly `:0:(): `, followed by the message body. Taking the last component of a
split never fails, whatever the text and the separator. -/
theorem logDecorator_unresolved (env : Env) (callers : List Frame) (s : Service)
    (mL callerLevel message : String) (extraMessage : List String)
    (h : runtimeCaller env (ownFrame env "Service.logDecorator" 118 :: callers)
      (depthOf callerLevel) = Frame.unresolved) :
    (∀ (text : String) (sep : Char), ∃ piece, lastIndex (stringsSplit text sep) = some piece) ∧
    lastIndex (stringsSplit Frame.unresolved.file '/') = some "" ∧
    lastIndex (stringsSplit Frame.unresolved.function '.') = some "" ∧
    fmtD Frame.unresolved.line = "0" ∧
    logDecorator env callers s mL callerLevel message extraMessage =
      some ("[" ++ env.date ++ "][" ++ env.time ++ "][" ++ s.NameApp ++ "]-[" ++ mL ++ "] " ++
        ":0:(): " ++ messageBody callerLevel message extraMessage) := by
  have hf0 : lastIndex (stringsSplit Frame.unresolved.file '/') = some "" := by decide
  have hn0 : lastIndex (stringsSplit Frame.unresolved.function '.') = some "" := by decide
  have hl0 : fmtD Frame.unresolved.line = "0" := by decide
  refine ⟨lastIndex_stringsSplit, hf0, hn0, hl0, ?_⟩
  obtain ⟨file, name, hf, hn, hd⟩ :=
    logDecorator_eq env callers s mL callerLevel message extraMessage
  rw [h] at hf hn hd
  have hfile : file = "" := Option.some.inj (hf.symm.trans hf0)
  have hname : name = "" := Option.some.inj (hn.symm.trans hn0)
  subst hfile
  subst hname
  rw [hd, hl0]
  have hh : ∀ a b : String, a ++ "" ++ ":" ++ "0" ++ ":" ++ "" ++ "(): " ++ b = a ++ ":0:(): " ++ b := by
    intro a b
    simp only [String.append_assoc]
    rfl
  rw [hh]
  simp [lineHeader]

theorem logDecorator_unresolved_witness :
    (∀ (text : String) (sep : Char), ∃ piece, lastIndex (stringsSplit text sep) = some piece) ∧
    lastIndex (stringsSplit Frame.unresolved.file '/') = some "" ∧
    lastIndex (stringsSplit Frame.unresolved.function '.') = some "" ∧
    fmtD Frame.unresolved.line = "0" ∧
    logDecorator demoEnv demoStack demoService "INFO" "4" "message" [] =
      some "[2024-01-02][15:04:05.123][LOGS]-[INFO] :0:(): message " :=
  logDecorator_unresolved demoEnv demoStack demoService "INFO" "4" "message" [] (by decide)

/-- C12 (counterexample). The selector `2` is neither `3` nor `4`, yet
`logDecorator` inspects the stack at depth `2` for it: on a stack where depth `2`
is `testing.tRunner` and depth `3` is `runtime.goexit` it reports
`testing.go:1446:tRunner()`, where the selector `3` reports
`asm_amd64.s:1594:goexit()`. -/
theorem selector_two_is_depth_two :
    ("2" : String) ≠ "3" ∧ ("2" : String) ≠ "4" ∧
    depthOf "2" = 2 ∧
    logDecorator demoEnv demoStack demoService "TRACE" "2" "message" [] =
      some "[2024-01-02][15:04:05.123][LOGS]-[TRACE] testing.go:1446:tRunner(): message " ∧
    logDecorator demoEnv demoStack demoService "TRACE" "3" "message" [] =
      some "[2024-01-02][15:04:05.123][LOGS]-[TRACE] asm_amd64.s:1594:goexit(): message " ∧
    logDecorator demoEnv demoStack demoService "TRACE" "2" "message" [] ≠
      logDecorator demoEnv demoStack demoService "TRACE" "3" "message" [] := by
  refine ⟨by decide, by decide, by decide, by decide, by decide, by decide⟩

/-- C12 (amended). A selector that `strconv.Atoi` rejects makes `logDecorator`
inspect the stack at depth `3`: its line carries the same call-site segment as
the line for the selector `3`. A selector that `strconv.Atoi` reads as the
integer `n` makes it inspect the stack at depth `n`. -/
theorem logDecorator_selector_depth (env : Env) (callers : List Frame) (s : Service)
    (mL callerLevel message : String) (extraMessage : List String) :
    (atoi callerLevel = none ∧
      ∃ file name,
        lastIndex (stringsSplit (runtimeCaller env
          (ownFrame env "Service.logDecorator" 118 :: callers) 3).file '/') = some file ∧
        lastIndex (stringsSplit (runtimeCaller env
          (ownFrame env "Service.logDecorator" 118 :: callers) 3).function '.') = some name ∧
        logDecorator env callers s mL callerLevel message extraMessage =
          some ("[" ++ env.date ++ "][" ++ env.time ++ "][" ++ s.NameApp ++ "]-[" ++ mL ++ "] " ++
            file ++ ":" ++ fmtD (runtimeCaller env
              (ownFrame env "Service.logDecorator" 118 :: callers) 3).line ++ ":" ++ name ++
            "(): " ++ messageBody callerLevel message extraMessage) ∧
        logDecorator env callers s mL "3" message extraMessage =
          some ("[" ++ env.date ++ "][" ++ env.time ++ "][" ++ s.NameApp ++ "]-[" ++ mL ++ "] " ++
            file ++ ":" ++ fmtD (runtimeCaller env
              (ownFrame env "Service.logDecorator" 118 :: callers) 3).line ++ ":" ++ name ++
            "(): " ++ messageBody "3" message extraMessage)) ∨
    (∃ n, atoi callerLevel = some n ∧
      ∃ file name,
        lastIndex (stringsSplit (runtimeCaller env
          (ownFrame env "Service.logDecorator" 118 :: callers) n).file '/') = some file ∧
        lastIndex (stringsSplit (runtimeCaller env
          (ownFrame env "Service.logDecorator" 118 :: callers) n).function '.') = some name ∧
        logDecorator env callers s mL callerLevel message extraMessage =
          some ("[" ++ env.date ++ "][" ++ env.time ++ "][" ++ s.NameApp ++ "]-[" ++ mL ++ "] " ++
            file ++ ":" ++ fmtD (runtimeCaller env
              (ownFrame env "Service.logDecorator" 118 :: callers) n).line ++ ":" ++ name ++
            "(): " ++ messageBody callerLevel message extraMessage)) := by
  cases ha : atoi callerLevel with
  | none =>
    left
    refine ⟨rfl, ?_⟩
    obtain ⟨file, name, hf, hn, hd⟩ :=
      logDecorator_eq env callers s mL callerLevel message extraMessage
    obtain ⟨file3, name3, hf3, hn3, hd3⟩ :=
      logDecorator_eq env callers s mL "3" message extraMessage
    rw [depthOf_of_atoi_none callerLevel ha] at hf hn hd
    rw [depthOf_caller] at hf3 hn3 hd3
    have hfile : file3 = file := Option.some.inj (hf3.symm.trans hf)
    have hname : name3 = name := Option.some.inj (hn3.symm.trans hn)
    subst hfile
    subst hname
    refine ⟨file3, name3, hf, hn, ?_, ?_⟩
    · rw [hd]; simp [lineHeader]
    · rw [hd3]; simp [lineHeader]
  | some n =>
    right
    refine ⟨n, rfl, ?_⟩
    obtain ⟨file, name, hf, hn, hd⟩ :=
      logDecorator_eq env callers s mL callerLevel message extraMessage
    rw [depthOf_of_atoi_some callerLevel n ha] at hf hn hd
    refine ⟨file, name, hf, hn, ?_⟩
    rw [hd]; simp [lineHeader]

end Logs
